import Mathlib

/-!
Shallow embedding of the payload builders and the URL-protection token
scheme of the django-qr-code repository (file qr_code/qr_code.py).
Strings are modelled as lists of characters; Python dictionaries as
association lists; Python values appearing as dictionary entries or
rendering parameters as the inductive type Val.
-/

namespace QrSpec

/-- Characters of a string literal, the working representation of Python strings. -/
def cs (s : String) : List Char := s.data

/-- Python values that occur as dictionary entries or as the size, border,
version and image format parameters: strings, integers, booleans, dates and
None. -/
inductive Val
  | vstr (s : List Char)
  | vint (n : Int)
  | vbool (b : Bool)
  | vdate (y m d : Nat)
  | vnone
deriving DecidableEq

/-- Decimal digit to its character; values ten and above never arise. -/
def digitChar : Nat → Char
  | 0 => '0' | 1 => '1' | 2 => '2' | 3 => '3' | 4 => '4'
  | 5 => '5' | 6 => '6' | 7 => '7' | 8 => '8' | 9 => '9'
  | _ + 10 => '0'

/-- Accumulator pass producing the decimal digits of a natural number; the
fuel argument only bounds the recursion and never runs out when it starts
at n plus one. -/
def natCharsAux : Nat → Nat → List Char → List Char
  | 0, _, acc => acc
  | fuel + 1, n, acc =>
      if n < 10 then digitChar (n % 10) :: acc
      else natCharsAux fuel (n / 10) (digitChar (n % 10) :: acc)

/-- Decimal representation of a natural number, most significant digit first. -/
def natChars (n : Nat) : List Char := natCharsAux (n + 1) n []

/-- Decimal representation of an integer, with a leading minus sign when negative. -/
def intChars : Int → List Char
  | Int.ofNat n => natChars n
  | Int.negSucc n => '-' :: natChars (n + 1)

/-- Embedding of Python str() on the values of Val. -/
def pyStrVal : Val → List Char
  | Val.vstr s => s
  | Val.vint n => intChars n
  | Val.vbool true => cs "True"
  | Val.vbool false => cs "False"
  | Val.vdate y m d => natChars y ++ '-' :: natChars m ++ '-' :: natChars d
  | Val.vnone => cs "None"

/-- Python truthiness of an optional dictionary entry: an absent value, the
empty string, False, the integer zero and None are falsy. -/
def truthy : Option Val → Bool
  | none => false
  | some (Val.vstr s) => decide (s ≠ [])
  | some (Val.vint n) => decide (n ≠ 0)
  | some (Val.vbool b) => b
  | some (Val.vdate _ _ _) => true
  | some Val.vnone => false

/-- Embedding of Python str.replace for a single-character pattern:
every occurrence of the character old is replaced by the string new. -/
def pyReplace1 : List Char → Char → List Char → List Char
  | [], _, _ => []
  | c :: rest, old, new =>
      (if c = old then new else [c]) ++ pyReplace1 rest old new

/-- Reserved characters of the MeCARD format, in the order the source
iterates over them (qr_code.py line 144). -/
def special_chars : List Char := ['\\', '"', ';', ',']

/-- Embedding of _escape_mecard_special_chars (qr_code.py lines 141-147):
an early return on a falsy string, then one replace per reserved character
prefixing it with a backslash, the backslash itself first. -/
def escape_mecard_special_chars (s : List Char) : List Char :=
  if s = [] then s
  else special_chars.foldl (fun acc sc => pyReplace1 acc sc ['\\', sc]) s

/-- Lifting of the escaping utility to an optional argument: a Python None
argument is falsy and returned unchanged. -/
def escape_mecard_special_chars_opt : Option (List Char) → Option (List Char)
  | none => none
  | some s => some (escape_mecard_special_chars s)

/-- The specification's description of the escaping utility: every
occurrence of a reserved character is prefixed with a backslash, scanning
left to right. Stated from the spec's words, to be compared with the
source-derived definition. -/
def escapeSpec : List Char → List Char
  | [] => []
  | c :: rest =>
      (if c ∈ special_chars then ['\\', c] else [c]) ++ escapeSpec rest

/-- Python dictionaries with string keys, as association lists in insertion
order; keys are unique in every dictionary a caller can build. -/
abbrev Dict : Type := List (String × Val)

/-- Membership test, Python's in operator on dictionaries. -/
def hasKey (d : Dict) (k : String) : Bool := (List.lookup k d).isSome

/-- Indexing d[k] for a key known to be present; the default value is never
reached on the dictionaries the builders receive. -/
def getVal (d : Dict) (k : String) : Val := (List.lookup k d).getD (Val.vstr [])

/-- Assignment d[k] = v on a dictionary: updates in place when the key
exists, appends otherwise (Python insertion order). -/
def dictSet : Dict → String → Val → Dict
  | [], k, v => [(k, v)]
  | (k0, v0) :: rest, k, v =>
      if k0 = k then (k0, v) :: rest else (k0, v0) :: dictSet rest k v

/-- Copy constructor dict(d); the pure model returns the same association
list (the store-passing model below accounts for the fresh allocation). -/
def dictCopy (d : Dict) : Dict := d

/-- Escaping applied to one dictionary value. The builders only escape keys
holding strings; on a non-string Python would raise, which no claim reaches,
so other values are returned unchanged. -/
def escVal : Val → Val
  | Val.vstr s => Val.vstr (escape_mecard_special_chars s)
  | v => v

/-- Embedding of _escape_mecard_special_chars_in_dict (qr_code.py lines
150-155): a copy of the dictionary in which each listed key that is present
in the original has its value escaped. -/
def escape_mecard_special_chars_in_dict (d : Dict) (keys : List String) : Dict :=
  keys.foldl
    (fun ed key => if hasKey d key then dictSet ed key (escVal (getVal ed key)) else ed)
    (dictCopy d)

/-- Name or name-reading value of the MeCARD builder (qr_code.py lines
186-191 and 194-199): last and first joined by a comma when both are truthy,
else whichever of the two Python values first-if-truthy-else-last gives. -/
def mecard_name (fn ln : Option Val) : Option Val :=
  if truthy fn ∧ truthy ln then
    some (Val.vstr (pyStrVal (ln.getD Val.vnone) ++ ',' :: pyStrVal (fn.getD Val.vnone)))
  else if truthy fn then fn else ln

/-- Field emitted when a computed value is truthy, as LABEL:value; . -/
def optSegV (label : String) (v : Option Val) : List Char :=
  if truthy v then cs label ++ pyStrVal (v.getD Val.vnone) ++ [';'] else []

/-- Field emitted when a key is present in the dictionary, as LABEL:value; . -/
def keySeg (d : Dict) (label : String) (key : String) : List Char :=
  if hasKey d key then cs label ++ pyStrVal (getVal d key) ++ [';'] else []

/-- Left-pad a decimal string with zeros to the given width. -/
def padZero (w : Nat) (s : List Char) : List Char :=
  List.replicate (w - s.length) '0' ++ s

/-- Embedding of date.strftime with format %Y%m%d (qr_code.py line 212):
an 8-digit zero-padded YYYYMMDD string. Python raises on a non-date
birthday value, which no claim reaches; the model returns the empty string. -/
def strftimeYmd : Val → List Char
  | Val.vdate y m d => padZero 4 (natChars y) ++ padZero 2 (natChars m) ++ padZero 2 (natChars d)
  | _ => []

/-- Keys whose values the MeCARD builder escapes (qr_code.py line 181). -/
def contactEscapeKeys : List String :=
  ["first_name", "last_name", "first_name_reading", "last_name_reading",
   "tel", "tel-av", "email", "memo", "nickname", "org"]

/-- Concatenation of the MeCARD field segments in the fixed source order
(qr_code.py lines 185-221), over the already escaped dictionary. -/
def mecard_fields (d : Dict) : List Char :=
  optSegV "N:" (mecard_name (List.lookup "first_name" d) (List.lookup "last_name" d)) ++
  optSegV "SOUND:" (mecard_name (List.lookup "first_name_reading" d) (List.lookup "last_name_reading" d)) ++
  keySeg d "TEL:" "tel" ++
  keySeg d "TEL-AV:" "tel-av" ++
  keySeg d "EMAIL:" "email" ++
  keySeg d "NOTE:" "memo" ++
  (if hasKey d "birthday" then cs "BDAY:" ++ strftimeYmd (getVal d "birthday") ++ [';'] else []) ++
  keySeg d "ADR:" "address" ++
  keySeg d "URL:" "url" ++
  keySeg d "NICKNAME:" "nickname" ++
  keySeg d "ORG:" "org"

/-- Embedding of make_contact_text (qr_code.py lines 158-223): escape the
free-text fields, then append the field segments after MECARD: and close
with a final semicolon. -/
def make_contact_text (d : Dict) : List Char :=
  cs "MECARD:" ++ mecard_fields (escape_mecard_special_chars_in_dict d contactEscapeKeys) ++ [';']

/-- Keys whose values the Wi-Fi builder escapes (qr_code.py line 238). -/
def wifiEscapeKeys : List String := ["ssid", "password"]

/-- Lowercasing, Python str.lower on the ASCII strings at hand. -/
def pyLowerStr (s : List Char) : List Char := s.map Char.toLower

/-- Composition step of make_wifi_text (qr_code.py lines 240-249) over the
already escaped dictionary: WIFI: then the S, T, P, H segments in order,
each when its key is present, the hidden value stringified and lowercased. -/
def wifi_compose (ed : Dict) : List Char :=
  cs "WIFI:" ++
  keySeg ed "S:" "ssid" ++
  keySeg ed "T:" "authentication" ++
  keySeg ed "P:" "password" ++
  (if hasKey ed "hidden" then cs "H:" ++ pyLowerStr (pyStrVal (getVal ed "hidden")) ++ [';'] else [])

/-- Embedding of make_wifi_text (qr_code.py lines 226-249): escape ssid and
password, then compose the WIFI segments. -/
def make_wifi_text (d : Dict) : List Char :=
  wifi_compose (escape_mecard_special_chars_in_dict d wifiEscapeKeys)

/-- Field segment as a function of the optional looked-up value. -/
def segPres (label : String) : Option Val → List Char
  | some v => cs label ++ pyStrVal v ++ [';']
  | none => []

/-- Birthday segment as a function of the optional looked-up value. -/
def segBday : Option Val → List Char
  | some v => cs "BDAY:" ++ strftimeYmd v ++ [';']
  | none => []

/-- Hidden segment of the Wi-Fi builder as a function of the optional
looked-up value. -/
def segHidden : Option Val → List Char
  | some v => cs "H:" ++ pyLowerStr (pyStrVal v) ++ [';']
  | none => []

/-- The N: field segment of the MeCARD builder, in terms of the original
dictionary. -/
def seg_name (d : Dict) : List Char :=
  optSegV "N:" (mecard_name (Option.map escVal (List.lookup "first_name" d))
    (Option.map escVal (List.lookup "last_name" d)))

/-- The SOUND: field segment of the MeCARD builder, in terms of the original
dictionary. -/
def seg_sound (d : Dict) : List Char :=
  optSegV "SOUND:" (mecard_name (Option.map escVal (List.lookup "first_name_reading" d))
    (Option.map escVal (List.lookup "last_name_reading" d)))

/-- The TEL: field segment, escaped value. -/
def seg_tel (d : Dict) : List Char :=
  segPres "TEL:" (Option.map escVal (List.lookup "tel" d))

/-- The TEL-AV: field segment, escaped value. -/
def seg_telav (d : Dict) : List Char :=
  segPres "TEL-AV:" (Option.map escVal (List.lookup "tel-av" d))

/-- The EMAIL: field segment, escaped value. -/
def seg_email (d : Dict) : List Char :=
  segPres "EMAIL:" (Option.map escVal (List.lookup "email" d))

/-- The NOTE: field segment, escaped memo value. -/
def seg_memo (d : Dict) : List Char :=
  segPres "NOTE:" (Option.map escVal (List.lookup "memo" d))

/-- The BDAY: field segment, strftime of the unescaped value. -/
def seg_bday (d : Dict) : List Char := segBday (List.lookup "birthday" d)

/-- The ADR: field segment, unescaped value. -/
def seg_adr (d : Dict) : List Char := segPres "ADR:" (List.lookup "address" d)

/-- The URL: field segment, unescaped value. -/
def seg_url (d : Dict) : List Char := segPres "URL:" (List.lookup "url" d)

/-- The NICKNAME: field segment, escaped value. -/
def seg_nickname (d : Dict) : List Char :=
  segPres "NICKNAME:" (Option.map escVal (List.lookup "nickname" d))

/-- The ORG: field segment, escaped value. -/
def seg_org (d : Dict) : List Char :=
  segPres "ORG:" (Option.map escVal (List.lookup "org" d))

/-- Concrete contact dictionary with both names, for the witness. -/
def johnDoe : Dict :=
  [("first_name", Val.vstr (cs "John")), ("last_name", Val.vstr (cs "Doe"))]

/-- Concrete contact dictionary with a comma in the phone number, for the
witness of the escaping asymmetry. -/
def telDict : Dict := [("tel", Val.vstr (cs "+1,234"))]

/-- Size letter dictionary of the source (qr_code.py line 26). -/
def SIZE_DICT : List (List Char × Int) :=
  [(cs "t", 6), (cs "s", 12), (cs "m", 18), (cs "l", 30), (cs "h", 48)]

/-- Python str.isdigit on the ASCII strings at hand: nonempty, digits only. -/
def pyIsDigit (s : List Char) : Bool :=
  decide (s ≠ []) && s.all (fun c => decide ('0' ≤ c) && decide (c ≤ '9'))

/-- Python int() on a digit string. -/
def parseDigits (s : List Char) : Int :=
  Int.ofNat (s.foldl (fun a c => a * 10 + (c.toNat - 48)) 0)

/-- Python isinstance(v, int); a Python bool is an int. -/
def isInstInt : Val → Bool
  | Val.vint _ => true
  | Val.vbool _ => true
  | _ => false

/-- Test for a digit string, the second disjunct of the source's guards. -/
def isDigitStr : Val → Bool
  | Val.vstr s => pyIsDigit s
  | _ => false

/-- Python int() applied to a value passing one of the two guards. -/
def pyIntOf : Val → Int
  | Val.vint n => n
  | Val.vbool true => 1
  | Val.vbool false => 0
  | Val.vstr s => parseDigits s
  | _ => 0

/-- Version resolution of make_qr_code_image (qr_code.py lines 86-91): an
int or digit string in range 1 to 40 is kept, anything else resolves to 0,
the auto-fit marker. -/
def actual_version (version : Val) : Int :=
  if isInstInt version || isDigitStr version then
    if pyIntOf version < 1 ∨ pyIntOf version > 40 then 0 else pyIntOf version
  else 0

/-- Size resolution of make_qr_code_image (qr_code.py lines 92-99): an int
or digit string below 1 resolves to SIZE_DICT m, other numbers are kept; a
non-numeric value goes through the letter dictionary with m as the fallback
key (the source replaces a falsy or unknown size by the letter m before
indexing; a non-string non-numeric value other than None raises in Python
and is not reached by any claim). -/
def actual_size (size : Val) : Int :=
  if isInstInt size || isDigitStr size then
    if pyIntOf size < 1 then (List.lookup (cs "m") SIZE_DICT).getD 0 else pyIntOf size
  else
    match size with
    | Val.vstr s =>
        if s = [] ∨ List.lookup (pyLowerStr s) SIZE_DICT = none then
          (List.lookup (cs "m") SIZE_DICT).getD 0
        else (List.lookup (pyLowerStr s) SIZE_DICT).getD 0
    | _ => (List.lookup (cs "m") SIZE_DICT).getD 0

/-- Requesting user, carrying the authenticated flag; both Django branches
of the source (method before 1.10, attribute after) yield this value. -/
structure User where
  is_authenticated : Bool

/-- Value configured under ALLOWS_EXTERNAL_REQUESTS_FOR_REGISTERED_USER: a
boolean flag or a callable evaluated on the user. -/
inductive AefruVal
  | flag (b : Bool)
  | func (f : User → Bool)

/-- Entries of the QR_CODE_URL_PROTECTION settings dictionary; an absent
entry keeps the default. -/
structure ProtectionConfig where
  TOKEN_LENGTH : Option Nat := none
  SIGNING_KEY : Option (List Char) := none
  SIGNING_SALT : Option (List Char) := none
  AEFRU : Option AefruVal := none
  AER : Option Bool := none

/-- Django settings as the token scheme reads them: the site secret key and
the optional protection dictionary (an absent attribute, or one that is not
a dict, is modelled as none). -/
structure SiteSettings where
  SECRET_KEY : List Char
  QR_CODE_URL_PROTECTION : Option ProtectionConfig := none

/-- Resolved option set returned by get_url_protection_options. The Python
code can leave a falsy None in ALLOWS_EXTERNAL_REQUESTS when the configured
callable is short-circuited by a missing user; the model keeps the boolean
truth value of the entry. -/
structure Options where
  TOKEN_LENGTH : Nat
  SIGNING_KEY : List Char
  SIGNING_SALT : List Char
  AEFRU : AefruVal
  ALLOWS_EXTERNAL_REQUESTS : Bool

/-- Embedding of get_url_protection_options (qr_code.py lines 42-66):
defaults, then the update from the settings dictionary when present,
followed by the branch on the AEFRU entry that recomputes
ALLOWS_EXTERNAL_REQUESTS: a callable is evaluated on the user (falsy when
there is no user), a truthy flag grants the authenticated status of a
present user, anything else resolves to False. -/
def get_url_protection_options (settings : SiteSettings) (user : Option User) : Options :=
  let defaults : Options := {
    TOKEN_LENGTH := 20
    SIGNING_KEY := settings.SECRET_KEY
    SIGNING_SALT := cs "qr_code_url_protection_salt"
    AEFRU := AefruVal.flag false
    ALLOWS_EXTERNAL_REQUESTS := false }
  match settings.QR_CODE_URL_PROTECTION with
  | none => defaults
  | some cfg =>
      let o : Options := {
        TOKEN_LENGTH := cfg.TOKEN_LENGTH.getD defaults.TOKEN_LENGTH
        SIGNING_KEY := cfg.SIGNING_KEY.getD defaults.SIGNING_KEY
        SIGNING_SALT := cfg.SIGNING_SALT.getD defaults.SIGNING_SALT
        AEFRU := cfg.AEFRU.getD defaults.AEFRU
        ALLOWS_EXTERNAL_REQUESTS := cfg.AER.getD defaults.ALLOWS_EXTERNAL_REQUESTS }
      match o.AEFRU with
      | AefruVal.func f =>
          { o with ALLOWS_EXTERNAL_REQUESTS :=
              match user with
              | none => false
              | some u => f u }
      | AefruVal.flag b =>
          if b then
            match user with
            | some u => { o with ALLOWS_EXTERNAL_REQUESTS := u.is_authenticated }
            | none => { o with ALLOWS_EXTERNAL_REQUESTS := false }
          else { o with ALLOWS_EXTERNAL_REQUESTS := false }

/-- Configuration that explicitly sets ALLOWS_EXTERNAL_REQUESTS to True and
nothing else. -/
def aerTrueConfig : ProtectionConfig := { AER := some true }

/-- Settings carrying that configuration. -/
def aerTrueSettings : SiteSettings :=
  { SECRET_KEY := cs "k", QR_CODE_URL_PROTECTION := some aerTrueConfig }

/-- Join of a list of strings with a dot separator, Python str.join. -/
def joinDot : List (List Char) → List Char
  | [] => []
  | [s] => s
  | s :: rest => s ++ '.' :: joinDot rest

/-- Embedding of get_qr_url_protection_token (qr_code.py lines 333-340):
the five components size, border, version, image_format, random_token, each
through str(), joined by a dot. -/
def get_qr_url_protection_token (size border version image_format random_token : Val) :
    List Char :=
  joinDot [pyStrVal size, pyStrVal border, pyStrVal version, pyStrVal image_format,
    pyStrVal random_token]

/-- Modelled from the spec: the keyed signing primitive behind Django's
Signer (django.core.signing), which the repository consumes but does not
contain. The digest is a concrete keyed fold standing in for the HMAC; its
exact values are irrelevant, the claims only need that verification
recomputes and compares it. -/
def macNum (key salt value : List Char) : Nat :=
  (key ++ salt ++ value).foldl (fun a c => (a * 31 + c.toNat) % 1000003) 7

/-- Signature rendered as decimal digits, hence free of the colon that
separates it from the payload. -/
def sigChars (key salt value : List Char) : List Char :=
  natChars (macNum key salt value)

/-- Modelled from the spec: the signer bound to a signing key and a fixed
domain-separation salt. -/
structure Signer where
  key : List Char
  salt : List Char

/-- Modelled from the spec: signing combines payload, a colon and the keyed
signature into one opaque string. -/
def Signer.sign (sg : Signer) (value : List Char) : List Char :=
  value ++ ':' :: sigChars sg.key sg.salt value

/-- Split a string at the last colon: the part before it and the colon-free
part after it. -/
def rsplitColon (s : List Char) : Option (List Char × List Char) :=
  match s with
  | [] => none
  | c :: rest =>
      match rsplitColon rest with
      | some (p, r) => some (c :: p, r)
      | none => if c = ':' then some ([], rest) else none

/-- Modelled from the spec: unsigning splits the opaque string at the last
colon, recomputes the signature of the recovered payload and rejects on any
mismatch (forged or tampered tokens). -/
def Signer.unsign (sg : Signer) (s : List Char) : Option (List Char) :=
  match rsplitColon s with
  | none => none
  | some (p, r) => if r = sigChars sg.key sg.salt p then some p else none

/-- Embedding of get_qr_url_protection_signed_token (qr_code.py lines
325-330): the protection token built from the four parameters and the
process-lifetime RANDOM_TOKEN, wrapped by the signer configured from the
resolved options (both passed explicitly here, matching the design note of
the spec). -/
def get_qr_url_protection_signed_token (sg : Signer) (random_token : List Char)
    (size border version image_format : Val) : List Char :=
  sg.sign (get_qr_url_protection_token size border version image_format
    (Val.vstr random_token))

/-- Modelled from the spec: verification by the serving view, which is not
under src/. The signer must successfully unsign the opaque string, and the
recovered plaintext must equal the protection token re-derived from the
parameters of the current call; otherwise reject. -/
def qr_url_protection_token_is_valid (sg : Signer) (random_token : List Char)
    (tok : List Char) (size border version image_format : Val) : Bool :=
  match sg.unsign tok with
  | none => false
  | some p =>
      decide (p = get_qr_url_protection_token size border version image_format
        (Val.vstr random_token))

/-- Mutable store of dictionary objects: the entry at index r is the
dictionary that reference r points to. Python aliasing becomes explicit:
mutating through one reference is a store update visible to every holder of
that reference. -/
abbrev Store : Type := List Dict

/-- Dereference a dictionary. -/
def storeGet (st : Store) (r : Nat) : Dict := st.getD r []

/-- Mutate the dictionary behind a reference in place. -/
def storeSet (st : Store) (r : Nat) (d : Dict) : Store := st.set r d

/-- Embedding of _escape_mecard_special_chars_in_dict at the reference
level (qr_code.py lines 150-155): dict(dict_to_escape) allocates a fresh
dictionary holding a copy of the argument's items, and each item assignment
then mutates that fresh object only, the original reference is never
written. Returns the updated store and the fresh reference. -/
def escape_in_dict_op (st : Store) (r : Nat) (keys : List String) : Store × Nat :=
  let d := storeGet st r
  let r1 := st.length
  let st1 := st ++ [d]
  (keys.foldl
    (fun acc key =>
      if hasKey d key then
        storeSet acc r1 (dictSet (storeGet acc r1) key (escVal (getVal (storeGet acc r1) key)))
      else acc)
    st1, r1)

/-- Embedding of make_contact_text at the reference level (qr_code.py line
181 rebinds the local name to the escaped copy; composition then only reads
that copy). -/
def make_contact_text_op (st : Store) (r : Nat) : Store × List Char :=
  let res := escape_in_dict_op st r contactEscapeKeys
  (res.1, cs "MECARD:" ++ mecard_fields (storeGet res.1 res.2) ++ [';'])

/-- Embedding of make_wifi_text at the reference level (qr_code.py line
238). -/
def make_wifi_text_op (st : Store) (r : Nat) : Store × List Char :=
  let res := escape_in_dict_op st r wifiEscapeKeys
  (res.1, wifi_compose (storeGet res.1 res.2))

theorem pyReplace1_append (a b : List Char) (old : Char) (new : List Char) :
    pyReplace1 (a ++ b) old new = pyReplace1 a old new ++ pyReplace1 b old new := by
  induction a with
  | nil => simp [pyReplace1]
  | cons c rest ih => simp [pyReplace1, ih]

/-- Unfolded form of the source's loop of four replaces. -/
theorem escape_foldl (s : List Char) :
    special_chars.foldl (fun acc sc => pyReplace1 acc sc ['\\', sc]) s =
      pyReplace1 (pyReplace1 (pyReplace1 (pyReplace1 s '\\' ['\\', '\\'])
        '"' ['\\', '"']) ';' ['\\', ';']) ',' ['\\', ','] := by
  simp [special_chars, List.foldl]

/-- The chain of four single-character replaces equals the one-pass
left-to-right escaping described by the spec. -/
theorem escape_chain_eq_spec (s : List Char) :
    pyReplace1 (pyReplace1 (pyReplace1 (pyReplace1 s '\\' ['\\', '\\'])
        '"' ['\\', '"']) ';' ['\\', ';']) ',' ['\\', ','] = escapeSpec s := by
  induction s with
  | nil => simp [pyReplace1, escapeSpec]
  | cons c rest ih =>
    by_cases h1 : c = '\\'
    · subst h1
      simp only [pyReplace1, if_pos rfl, pyReplace1_append, ih, escapeSpec]
      simp +decide [pyReplace1, special_chars]
      exact ih
    · by_cases h2 : c = '"'
      · subst h2
        simp only [pyReplace1, if_neg h1, pyReplace1_append, ih, escapeSpec]
        simp +decide [pyReplace1, special_chars]
        exact ih
      · by_cases h3 : c = ';'
        · subst h3
          simp only [pyReplace1, if_neg h1, if_neg h2, pyReplace1_append, ih, escapeSpec]
          simp +decide [pyReplace1, special_chars]
          exact ih
        · by_cases h4 : c = ','
          · subst h4
            simp only [pyReplace1, if_neg h1, if_neg h2, if_neg h3,
              pyReplace1_append, ih, escapeSpec]
            simp +decide [pyReplace1, special_chars]
            exact ih
          · simp only [pyReplace1, if_neg h1, if_neg h2, if_neg h3, if_neg h4,
              pyReplace1_append, ih, escapeSpec, special_chars]
            simp [pyReplace1, h1, h2, h3, h4, List.mem_cons]

/-- The escaping utility computes exactly the spec's one-pass escape. -/
theorem escape_eq_spec (s : List Char) :
    escape_mecard_special_chars s = escapeSpec s := by
  unfold escape_mecard_special_chars
  by_cases h : s = []
  · subst h; simp [escapeSpec]
  · rw [if_neg h, escape_foldl, escape_chain_eq_spec]

theorem lookup_dictSet (d : Dict) (k k2 : String) (v : Val) :
    List.lookup k2 (dictSet d k v) = if k2 = k then some v else List.lookup k2 d := by
  induction d with
  | nil =>
    by_cases h : k2 = k
    · subst h
      simp [dictSet, List.lookup]
    · have hb : (k2 == k) = false := beq_eq_false_iff_ne.mpr h
      simp [dictSet, List.lookup, h, hb]
  | cons p rest ih =>
    obtain ⟨k0, v0⟩ := p
    by_cases h0 : k0 = k
    · subst h0
      unfold dictSet
      rw [if_pos rfl]
      by_cases h : k2 = k0
      · subst h
        simp [List.lookup]
      · have hb : (k2 == k0) = false := beq_eq_false_iff_ne.mpr h
        simp [List.lookup, hb, h]
    · unfold dictSet
      rw [if_neg h0]
      by_cases h : k2 = k0
      · subst h
        have hne : ¬ k2 = k := fun hc => h0 (hc ▸ rfl)
        simp [List.lookup, hne]
      · have hb : (k2 == k0) = false := beq_eq_false_iff_ne.mpr h
        simp [List.lookup, hb, ih]

/-- Lookup after the escaping fold, for a starting dictionary that agrees
with the guard dictionary on the keys still to process. -/
theorem escape_foldl_lookup (d0 : Dict) (keys : List String) :
    keys.Nodup → ∀ ed : Dict, (∀ k2, k2 ∈ keys → List.lookup k2 ed = List.lookup k2 d0) →
    ∀ k : String,
      List.lookup k (keys.foldl
        (fun ed key => if hasKey d0 key then dictSet ed key (escVal (getVal ed key)) else ed) ed) =
      if k ∈ keys ∧ hasKey d0 k then Option.map escVal (List.lookup k d0) else List.lookup k ed := by
  induction keys with
  | nil =>
    intro _ ed _ k
    simp
  | cons key rest ih =>
    intro hnd ed hed k
    have hkey : key ∉ rest := (List.nodup_cons.mp hnd).1
    have hrest : rest.Nodup := (List.nodup_cons.mp hnd).2
    rw [List.foldl_cons]
    have hstep : ∀ k2, k2 ∈ rest →
        List.lookup k2 (if hasKey d0 key then dictSet ed key (escVal (getVal ed key)) else ed) =
          List.lookup k2 d0 := by
      intro k2 hk2
      have hne : k2 ≠ key := fun h => hkey (h ▸ hk2)
      by_cases hh : hasKey d0 key
      · rw [if_pos hh, lookup_dictSet, if_neg hne]
        exact hed k2 (List.mem_cons_of_mem _ hk2)
      · rw [if_neg hh]
        exact hed k2 (List.mem_cons_of_mem _ hk2)
    rw [ih hrest _ hstep k]
    by_cases hmem : k ∈ rest ∧ hasKey d0 k
    · rw [if_pos hmem, if_pos ⟨List.mem_cons_of_mem _ hmem.1, hmem.2⟩]
    · rw [if_neg hmem]
      by_cases hk : k = key
      · subst hk
        by_cases hh : hasKey d0 k
        · rw [if_pos hh, lookup_dictSet, if_pos rfl,
            if_pos ⟨List.mem_cons_self _ _, hh⟩]
          have hedk : List.lookup k ed = List.lookup k d0 :=
            hed k (List.mem_cons_self _ _)
          obtain ⟨v, hv⟩ := Option.isSome_iff_exists.mp hh
          rw [hv]
          show some (escVal (getVal ed k)) = Option.map escVal (some v)
          rw [getVal, hedk, hv]
          rfl
        · rw [if_neg hh]
          have hcond : ¬ (k ∈ k :: rest ∧ hasKey d0 k) := fun h => hh h.2
          rw [if_neg hcond]
      · have hlk : List.lookup k (if hasKey d0 key then
            dictSet ed key (escVal (getVal ed key)) else ed) = List.lookup k ed := by
          by_cases hh : hasKey d0 key
          · rw [if_pos hh, lookup_dictSet, if_neg hk]
          · rw [if_neg hh]
        rw [hlk]
        have : ¬ (k ∈ key :: rest ∧ hasKey d0 k) := by
          rintro ⟨hin, hh⟩
          rcases List.mem_cons.mp hin with h | h
          · exact hk h
          · exact hmem ⟨h, hh⟩
        rw [if_neg this]

/-- Lookup in the escaped dictionary of a key listed for escaping: the
original value with the escaping applied. -/
theorem escape_in_dict_lookup_mem (d : Dict) (keys : List String) (h : keys.Nodup)
    (k : String) (hk : k ∈ keys) :
    List.lookup k (escape_mecard_special_chars_in_dict d keys) =
      Option.map escVal (List.lookup k d) := by
  unfold escape_mecard_special_chars_in_dict dictCopy
  rw [escape_foldl_lookup d keys h d (fun _ _ => rfl) k]
  by_cases hh : hasKey d k
  · rw [if_pos ⟨hk, hh⟩]
  · rw [if_neg (fun hc => hh hc.2)]
    have : List.lookup k d = none := by
      by_contra hc
      exact hh (Option.isSome_iff_exists.mpr ⟨_, Option.ne_none_iff_exists'.mp hc |>.choose_spec⟩)
    rw [this]
    rfl

/-- Lookup in the escaped dictionary of a key not listed for escaping: the
original value, untouched. -/
theorem escape_in_dict_lookup_not_mem (d : Dict) (keys : List String) (h : keys.Nodup)
    (k : String) (hk : k ∉ keys) :
    List.lookup k (escape_mecard_special_chars_in_dict d keys) = List.lookup k d := by
  unfold escape_mecard_special_chars_in_dict dictCopy
  rw [escape_foldl_lookup d keys h d (fun _ _ => rfl) k]
  rw [if_neg (fun hc => hk hc.1)]

/-- Nodup fact about the MeCARD escape key list. -/
theorem contactEscapeKeys_nodup : contactEscapeKeys.Nodup := by decide

/-- Nodup fact about the Wi-Fi escape key list. -/
theorem wifiEscapeKeys_nodup : wifiEscapeKeys.Nodup := by decide

theorem keySeg_eq (d : Dict) (label key : String) :
    keySeg d label key = segPres label (List.lookup key d) := by
  unfold keySeg hasKey getVal
  cases List.lookup key d <;> simp [segPres]

theorem bdaySeg_eq (d : Dict) :
    (if hasKey d "birthday" then cs "BDAY:" ++ strftimeYmd (getVal d "birthday") ++ [';'] else [])
      = segBday (List.lookup "birthday" d) := by
  unfold hasKey getVal
  cases List.lookup "birthday" d <;> simp [segBday]

theorem hiddenSeg_eq (d : Dict) :
    (if hasKey d "hidden" then cs "H:" ++ pyLowerStr (pyStrVal (getVal d "hidden")) ++ [';'] else [])
      = segHidden (List.lookup "hidden" d) := by
  unfold hasKey getVal
  cases List.lookup "hidden" d <;> simp [segHidden]

/-- Escaping a string is the empty string exactly when the input is. -/
theorem escape_eq_nil_iff (s : List Char) :
    escape_mecard_special_chars s = [] ↔ s = [] := by
  rw [escape_eq_spec]
  cases s with
  | nil => simp [escapeSpec]
  | cons c rest =>
    have hblock : (if c ∈ special_chars then ['\\', c] else [c]) ≠ [] := by
      split <;> simp
    simp only [escapeSpec]
    constructor
    · intro h
      exact absurd (List.append_eq_nil.mp h).1 hblock
    · intro h
      exact absurd h (List.cons_ne_nil c rest)

/-- Escaping one dictionary value preserves Python truthiness. -/
theorem truthy_map_escVal (o : Option Val) :
    truthy (Option.map escVal o) = truthy o := by
  cases o with
  | none => rfl
  | some v =>
    cases v with
    | vstr s => simp [truthy, escVal, escape_eq_nil_iff]
    | vint n => rfl
    | vbool b => rfl
    | vdate y m d => rfl
    | vnone => rfl

/-- Characterization of the MeCARD builder as the concatenation of its field
segments, each a function of the original dictionary's entry for its key:
the segments appear in the fixed source order, the free-text fields escaped,
address, birthday and url not. -/
theorem make_contact_eq (d : Dict) :
    make_contact_text d = cs "MECARD:" ++ seg_name d ++ seg_sound d ++ seg_tel d ++
      seg_telav d ++ seg_email d ++ seg_memo d ++ seg_bday d ++ seg_adr d ++ seg_url d ++
      seg_nickname d ++ seg_org d ++ [';'] := by
  unfold make_contact_text mecard_fields seg_name seg_sound seg_tel seg_telav seg_email
    seg_memo seg_bday seg_adr seg_url seg_nickname seg_org
  simp only [keySeg_eq, bdaySeg_eq]
  rw [escape_in_dict_lookup_mem d contactEscapeKeys contactEscapeKeys_nodup "first_name" (by decide),
    escape_in_dict_lookup_mem d contactEscapeKeys contactEscapeKeys_nodup "last_name" (by decide),
    escape_in_dict_lookup_mem d contactEscapeKeys contactEscapeKeys_nodup "first_name_reading" (by decide),
    escape_in_dict_lookup_mem d contactEscapeKeys contactEscapeKeys_nodup "last_name_reading" (by decide),
    escape_in_dict_lookup_mem d contactEscapeKeys contactEscapeKeys_nodup "tel" (by decide),
    escape_in_dict_lookup_mem d contactEscapeKeys contactEscapeKeys_nodup "tel-av" (by decide),
    escape_in_dict_lookup_mem d contactEscapeKeys contactEscapeKeys_nodup "email" (by decide),
    escape_in_dict_lookup_mem d contactEscapeKeys contactEscapeKeys_nodup "memo" (by decide),
    escape_in_dict_lookup_mem d contactEscapeKeys contactEscapeKeys_nodup "nickname" (by decide),
    escape_in_dict_lookup_mem d contactEscapeKeys contactEscapeKeys_nodup "org" (by decide),
    escape_in_dict_lookup_not_mem d contactEscapeKeys contactEscapeKeys_nodup "birthday" (by decide),
    escape_in_dict_lookup_not_mem d contactEscapeKeys contactEscapeKeys_nodup "address" (by decide),
    escape_in_dict_lookup_not_mem d contactEscapeKeys contactEscapeKeys_nodup "url" (by decide)]
  simp [List.append_assoc]

/-- Characterization of the Wi-Fi builder: WIFI: then the S, T, P, H
segments in that fixed order, each emitted only when its key is present,
escaping applied to the ssid and password values only, and the hidden value
stringified and lowercased. -/
theorem make_wifi_eq (d : Dict) :
    make_wifi_text d = cs "WIFI:" ++
      segPres "S:" (Option.map escVal (List.lookup "ssid" d)) ++
      segPres "T:" (List.lookup "authentication" d) ++
      segPres "P:" (Option.map escVal (List.lookup "password" d)) ++
      segHidden (List.lookup "hidden" d) := by
  unfold make_wifi_text wifi_compose
  simp only [keySeg_eq, hiddenSeg_eq]
  rw [escape_in_dict_lookup_mem d wifiEscapeKeys wifiEscapeKeys_nodup "ssid" (by decide),
    escape_in_dict_lookup_mem d wifiEscapeKeys wifiEscapeKeys_nodup "password" (by decide),
    escape_in_dict_lookup_not_mem d wifiEscapeKeys wifiEscapeKeys_nodup "authentication" (by decide),
    escape_in_dict_lookup_not_mem d wifiEscapeKeys wifiEscapeKeys_nodup "hidden" (by decide)]

theorem optSeg_name_both (label : String) (f l : List Char) (hf0 : f ≠ []) (hl0 : l ≠ []) :
    optSegV label (mecard_name (some (Val.vstr f)) (some (Val.vstr l))) =
      cs label ++ l ++ ',' :: f ++ [';'] := by
  have htf : truthy (some (Val.vstr f)) = true := by simp [truthy, hf0]
  have htl : truthy (some (Val.vstr l)) = true := by simp [truthy, hl0]
  have htn : truthy (some (Val.vstr (l ++ ',' :: f))) = true := by simp [truthy]
  simp [mecard_name, optSegV, htf, htl, htn, pyStrVal, List.append_assoc]

theorem optSeg_name_first (label : String) (lo : Option Val) (f : List Char)
    (hf0 : f ≠ []) (hl : truthy lo = false) :
    optSegV label (mecard_name (some (Val.vstr f)) lo) = cs label ++ f ++ [';'] := by
  have htf : truthy (some (Val.vstr f)) = true := by simp [truthy, hf0]
  simp [mecard_name, optSegV, htf, hl, pyStrVal, List.append_assoc]

theorem optSeg_name_last (label : String) (fo : Option Val) (l : List Char)
    (hf : truthy fo = false) (hl0 : l ≠ []) :
    optSegV label (mecard_name fo (some (Val.vstr l))) = cs label ++ l ++ [';'] := by
  have htl : truthy (some (Val.vstr l)) = true := by simp [truthy, hl0]
  simp [mecard_name, optSegV, htl, hf, pyStrVal, List.append_assoc]

theorem optSeg_name_none (label : String) (fo lo : Option Val)
    (hf : truthy fo = false) (hl : truthy lo = false) :
    optSegV label (mecard_name fo lo) = [] := by
  simp [mecard_name, optSegV, hf, hl]

/-- Mapping escVal over a looked-up string value. -/
theorem map_escVal_some (o : Option Val) (s : List Char) (h : o = some (Val.vstr s)) :
    Option.map escVal o = some (Val.vstr (escape_mecard_special_chars s)) := by
  subst h
  rfl

/-- Nonemptiness of an escaped nonempty string. -/
theorem escape_ne_nil (s : List Char) (h : s ≠ []) :
    escape_mecard_special_chars s ≠ [] := fun hc => h ((escape_eq_nil_iff s).mp hc)

/-- Claim C4: the MeCARD name composition. With both first and last name
present and nonempty the output carries the field N:last,first; with exactly
one of them truthy it carries N: followed by that one name; with neither
truthy the N: segment is omitted entirely; the SOUND: field follows the
identical logic on the reading fields; and the record holding only
first_name John yields exactly MECARD:N:John;; with no trailing comma and no
SOUND: field. -/
theorem mecard_name_composition :
    (∀ (d : Dict) (f l : List Char),
        List.lookup "first_name" d = some (Val.vstr f) → f ≠ [] →
        List.lookup "last_name" d = some (Val.vstr l) → l ≠ [] →
        make_contact_text d = cs "MECARD:" ++
          (cs "N:" ++ escape_mecard_special_chars l ++ ',' ::
            escape_mecard_special_chars f ++ [';']) ++
          seg_sound d ++ seg_tel d ++ seg_telav d ++ seg_email d ++ seg_memo d ++
          seg_bday d ++ seg_adr d ++ seg_url d ++ seg_nickname d ++ seg_org d ++ [';']) ∧
    (∀ (d : Dict) (f : List Char),
        List.lookup "first_name" d = some (Val.vstr f) → f ≠ [] →
        truthy (List.lookup "last_name" d) = false →
        make_contact_text d = cs "MECARD:" ++
          (cs "N:" ++ escape_mecard_special_chars f ++ [';']) ++
          seg_sound d ++ seg_tel d ++ seg_telav d ++ seg_email d ++ seg_memo d ++
          seg_bday d ++ seg_adr d ++ seg_url d ++ seg_nickname d ++ seg_org d ++ [';']) ∧
    (∀ (d : Dict) (l : List Char),
        truthy (List.lookup "first_name" d) = false →
        List.lookup "last_name" d = some (Val.vstr l) → l ≠ [] →
        make_contact_text d = cs "MECARD:" ++
          (cs "N:" ++ escape_mecard_special_chars l ++ [';']) ++
          seg_sound d ++ seg_tel d ++ seg_telav d ++ seg_email d ++ seg_memo d ++
          seg_bday d ++ seg_adr d ++ seg_url d ++ seg_nickname d ++ seg_org d ++ [';']) ∧
    (∀ d : Dict,
        truthy (List.lookup "first_name" d) = false →
        truthy (List.lookup "last_name" d) = false →
        make_contact_text d = cs "MECARD:" ++
          seg_sound d ++ seg_tel d ++ seg_telav d ++ seg_email d ++ seg_memo d ++
          seg_bday d ++ seg_adr d ++ seg_url d ++ seg_nickname d ++ seg_org d ++ [';']) ∧
    (∀ (d : Dict) (f l : List Char),
        List.lookup "first_name_reading" d = some (Val.vstr f) → f ≠ [] →
        List.lookup "last_name_reading" d = some (Val.vstr l) → l ≠ [] →
        make_contact_text d = cs "MECARD:" ++ seg_name d ++
          (cs "SOUND:" ++ escape_mecard_special_chars l ++ ',' ::
            escape_mecard_special_chars f ++ [';']) ++
          seg_tel d ++ seg_telav d ++ seg_email d ++ seg_memo d ++
          seg_bday d ++ seg_adr d ++ seg_url d ++ seg_nickname d ++ seg_org d ++ [';']) ∧
    (∀ d : Dict,
        truthy (List.lookup "first_name_reading" d) = false →
        truthy (List.lookup "last_name_reading" d) = false →
        make_contact_text d = cs "MECARD:" ++ seg_name d ++
          seg_tel d ++ seg_telav d ++ seg_email d ++ seg_memo d ++
          seg_bday d ++ seg_adr d ++ seg_url d ++ seg_nickname d ++ seg_org d ++ [';']) ∧
    make_contact_text [("first_name", Val.vstr (cs "John"))] = cs "MECARD:N:John;;" := by
  refine ⟨?_, ?_, ?_, ?_, ?_, ?_, by decide⟩
  · intro d f l hf hf0 hl hl0
    rw [make_contact_eq]
    have hseg : seg_name d = cs "N:" ++ escape_mecard_special_chars l ++ ',' ::
        escape_mecard_special_chars f ++ [';'] := by
      unfold seg_name
      rw [map_escVal_some _ _ hf, map_escVal_some _ _ hl]
      exact optSeg_name_both "N:" _ _ (escape_ne_nil f hf0) (escape_ne_nil l hl0)
    rw [hseg]
  · intro d f hf hf0 hl
    rw [make_contact_eq]
    have hseg : seg_name d = cs "N:" ++ escape_mecard_special_chars f ++ [';'] := by
      unfold seg_name
      rw [map_escVal_some _ _ hf]
      exact optSeg_name_first "N:" _ _ (escape_ne_nil f hf0)
        ((truthy_map_escVal _).trans hl)
    rw [hseg]
  · intro d l hf hl hl0
    rw [make_contact_eq]
    have hseg : seg_name d = cs "N:" ++ escape_mecard_special_chars l ++ [';'] := by
      unfold seg_name
      rw [map_escVal_some _ _ hl]
      exact optSeg_name_last "N:" _ _ ((truthy_map_escVal _).trans hf)
        (escape_ne_nil l hl0)
    rw [hseg]
  · intro d hf hl
    rw [make_contact_eq]
    have hseg : seg_name d = [] := by
      unfold seg_name
      exact optSeg_name_none "N:" _ _ ((truthy_map_escVal _).trans hf)
        ((truthy_map_escVal _).trans hl)
    rw [hseg]
    simp
  · intro d f l hf hf0 hl hl0
    rw [make_contact_eq]
    have hseg : seg_sound d = cs "SOUND:" ++ escape_mecard_special_chars l ++ ',' ::
        escape_mecard_special_chars f ++ [';'] := by
      unfold seg_sound
      rw [map_escVal_some _ _ hf, map_escVal_some _ _ hl]
      exact optSeg_name_both "SOUND:" _ _ (escape_ne_nil f hf0) (escape_ne_nil l hl0)
    rw [hseg]
  · intro d hf hl
    rw [make_contact_eq]
    have hseg : seg_sound d = [] := by
      unfold seg_sound
      exact optSeg_name_none "SOUND:" _ _ ((truthy_map_escVal _).trans hf)
        ((truthy_map_escVal _).trans hl)
    rw [hseg]
    simp

/-- Witness for claim C4 at the concrete record with first name John and
last name Doe. -/
theorem mecard_name_composition_witness :
    make_contact_text johnDoe = cs "MECARD:" ++
      (cs "N:" ++ escape_mecard_special_chars (cs "Doe") ++ ',' ::
        escape_mecard_special_chars (cs "John") ++ [';']) ++
      seg_sound johnDoe ++ seg_tel johnDoe ++ seg_telav johnDoe ++ seg_email johnDoe ++
      seg_memo johnDoe ++ seg_bday johnDoe ++ seg_adr johnDoe ++ seg_url johnDoe ++
      seg_nickname johnDoe ++ seg_org johnDoe ++ [';'] :=
  mecard_name_composition.1 johnDoe (cs "John") (cs "Doe")
    (by decide) (by decide) (by decide) (by decide)

/-- Claim C5: the escaping asymmetry of the MeCARD builder. Every key listed
for escaping (the free-text fields) has its value escaped in the working
copy, every other key (address, birthday, url among them) keeps its value
verbatim; a tel value appears escaped in the TEL: segment while an address
value appears unescaped in the ADR: segment; in particular tel +1,234 is
emitted with the comma escaped and a comma in the address is not. -/
theorem mecard_escaping_asymmetry :
    (∀ (d : Dict) (k : String), k ∈ contactEscapeKeys →
        List.lookup k (escape_mecard_special_chars_in_dict d contactEscapeKeys) =
          Option.map escVal (List.lookup k d)) ∧
    (∀ (d : Dict) (k : String), k ∉ contactEscapeKeys →
        List.lookup k (escape_mecard_special_chars_in_dict d contactEscapeKeys) =
          List.lookup k d) ∧
    (∀ (d : Dict) (t : List Char), List.lookup "tel" d = some (Val.vstr t) →
        make_contact_text d = cs "MECARD:" ++ seg_name d ++ seg_sound d ++
          (cs "TEL:" ++ escape_mecard_special_chars t ++ [';']) ++ seg_telav d ++
          seg_email d ++ seg_memo d ++ seg_bday d ++ seg_adr d ++ seg_url d ++
          seg_nickname d ++ seg_org d ++ [';']) ∧
    (∀ (d : Dict) (a : List Char), List.lookup "address" d = some (Val.vstr a) →
        make_contact_text d = cs "MECARD:" ++ seg_name d ++ seg_sound d ++ seg_tel d ++
          seg_telav d ++ seg_email d ++ seg_memo d ++ seg_bday d ++
          (cs "ADR:" ++ a ++ [';']) ++ seg_url d ++
          seg_nickname d ++ seg_org d ++ [';']) ∧
    make_contact_text [("tel", Val.vstr (cs "+1,234"))] = cs "MECARD:TEL:+1\\,234;;" ∧
    make_contact_text [("address", Val.vstr (cs "1,2 Road"))] = cs "MECARD:ADR:1,2 Road;;" := by
  refine ⟨?_, ?_, ?_, ?_, by decide, by decide⟩
  · intro d k hk
    exact escape_in_dict_lookup_mem d _ contactEscapeKeys_nodup k hk
  · intro d k hk
    exact escape_in_dict_lookup_not_mem d _ contactEscapeKeys_nodup k hk
  · intro d t ht
    rw [make_contact_eq]
    have hseg : seg_tel d = cs "TEL:" ++ escape_mecard_special_chars t ++ [';'] := by
      unfold seg_tel
      rw [map_escVal_some _ _ ht]
      simp [segPres, pyStrVal, List.append_assoc]
    rw [hseg]
  · intro d a ha
    rw [make_contact_eq]
    have hseg : seg_adr d = cs "ADR:" ++ a ++ [';'] := by
      unfold seg_adr
      rw [ha]
      simp [segPres, pyStrVal, List.append_assoc]
    rw [hseg]

/-- Witness for claim C5 at the concrete record holding tel +1,234. -/
theorem mecard_escaping_asymmetry_witness :
    make_contact_text telDict = cs "MECARD:" ++ seg_name telDict ++ seg_sound telDict ++
      (cs "TEL:" ++ escape_mecard_special_chars (cs "+1,234") ++ [';']) ++ seg_telav telDict ++
      seg_email telDict ++ seg_memo telDict ++ seg_bday telDict ++ seg_adr telDict ++
      seg_url telDict ++ seg_nickname telDict ++ seg_org telDict ++ [';'] :=
  mecard_escaping_asymmetry.2.2.1 telDict (cs "+1,234") (by decide)

theorem endsSemi_append (a b : List Char)
    (ha : a = [] ∨ ∃ u, a = u ++ [';']) (hb : b = [] ∨ ∃ u, b = u ++ [';']) :
    a ++ b = [] ∨ ∃ u, a ++ b = u ++ [';'] := by
  rcases hb with hb | ⟨u, hu⟩
  · subst hb
    simpa using ha
  · subst hu
    right
    exact ⟨a ++ u, by simp⟩

theorem optSegV_endsSemi (label : String) (o : Option Val) :
    optSegV label o = [] ∨ ∃ u, optSegV label o = u ++ [';'] := by
  unfold optSegV
  split
  · right
    exact ⟨cs label ++ pyStrVal (o.getD Val.vnone), by simp⟩
  · left
    rfl

theorem segPres_endsSemi (label : String) (o : Option Val) :
    segPres label o = [] ∨ ∃ u, segPres label o = u ++ [';'] := by
  cases o with
  | none => left; rfl
  | some v => right; exact ⟨cs label ++ pyStrVal v, by simp [segPres]⟩

theorem segBday_endsSemi (o : Option Val) :
    segBday o = [] ∨ ∃ u, segBday o = u ++ [';'] := by
  cases o with
  | none => left; rfl
  | some v => right; exact ⟨cs "BDAY:" ++ strftimeYmd v, by simp [segBday]⟩

/-- Each emitted MeCARD field ends with a semicolon, so their concatenation
is empty or ends with one. -/
theorem mecard_fields_endsSemi (d : Dict) :
    mecard_fields d = [] ∨ ∃ u, mecard_fields d = u ++ [';'] := by
  unfold mecard_fields
  rw [bdaySeg_eq]
  simp only [keySeg_eq]
  exact endsSemi_append _ _ (endsSemi_append _ _ (endsSemi_append _ _ (endsSemi_append _ _
    (endsSemi_append _ _ (endsSemi_append _ _ (endsSemi_append _ _ (endsSemi_append _ _
    (endsSemi_append _ _ (endsSemi_append _ _ (optSegV_endsSemi _ _) (optSegV_endsSemi _ _))
    (segPres_endsSemi _ _)) (segPres_endsSemi _ _)) (segPres_endsSemi _ _))
    (segPres_endsSemi _ _)) (segBday_endsSemi _)) (segPres_endsSemi _ _))
    (segPres_endsSemi _ _)) (segPres_endsSemi _ _)) (segPres_endsSemi _ _)

/-- Counterexample to claim C6 as stated: the empty record yields MECARD:;
which does not end with two semicolons. -/
theorem mecard_framing_counterexample :
    make_contact_text [] = cs "MECARD:;" ∧
      ¬ ∃ u : List Char, cs "MECARD:;" = u ++ cs ";;" := by
  refine ⟨by decide, ?_⟩
  rintro ⟨u, h⟩
  have hlen : (cs "MECARD:;").length = u.length + 2 := by
    rw [h]
    simp [cs]
  have h8 : (cs "MECARD:;").length = 8 := by decide
  have h6 : u.length = 6 := by omega
  have hg : (cs "MECARD:;")[6]? = (u ++ cs ";;")[6]? := by rw [h]
  rw [List.getElem?_append_right (by omega)] at hg
  have hbad : some ':' = some ';' := by
    calc some ':' = (cs "MECARD:;")[6]? := by decide
      _ = (cs ";;")[6 - u.length]? := hg
      _ = (cs ";;")[0]? := by rw [h6]
      _ = some ';' := by decide
  exact absurd hbad (by decide)

/-- Claim C6 amended: every MeCARD output begins with MECARD:, and it ends
with two semicolons whenever at least one field segment is emitted; the
record emitting no field (the empty record among them) yields MECARD: plus
the single closing semicolon. -/
theorem mecard_framing_amended :
    ∀ d : Dict,
      (∃ u, make_contact_text d = cs "MECARD:" ++ u) ∧
      (mecard_fields (escape_mecard_special_chars_in_dict d contactEscapeKeys) ≠ [] →
        ∃ u, make_contact_text d = u ++ cs ";;") := by
  intro d
  constructor
  · refine ⟨mecard_fields (escape_mecard_special_chars_in_dict d contactEscapeKeys) ++ [';'], ?_⟩
    unfold make_contact_text
    simp [List.append_assoc]
  · intro hne
    rcases mecard_fields_endsSemi (escape_mecard_special_chars_in_dict d contactEscapeKeys)
      with h | ⟨u, hu⟩
    · exact absurd h hne
    · refine ⟨cs "MECARD:" ++ u, ?_⟩
      unfold make_contact_text
      rw [hu]
      have hss : (cs ";;" : List Char) = [';'] ++ [';'] := by decide
      rw [hss]
      simp [List.append_assoc]

/-- Witness for the amended claim C6 at a record that emits one field. -/
theorem mecard_framing_amended_witness :
    (∃ u, make_contact_text [("url", Val.vstr (cs "x"))] = cs "MECARD:" ++ u) ∧
      (∃ u, make_contact_text [("url", Val.vstr (cs "x"))] = u ++ cs ";;") :=
  ⟨(mecard_framing_amended [("url", Val.vstr (cs "x"))]).1,
    (mecard_framing_amended [("url", Val.vstr (cs "x"))]).2 (by decide)⟩

/-- Claim C7: the Wi-Fi builder emits WIFI: then the S, T, P, H segments in
that fixed order, each only when its key is present and each terminated by a
semicolon, with escaping applied to ssid and password only and the hidden
value stringified as lowercase boolean text; the record with ssid Home, WPA,
password secret and hidden true yields exactly WIFI:S:Home;T:WPA;P:secret;H:true; . -/
theorem wifi_builder_format :
    (∀ d : Dict, make_wifi_text d = cs "WIFI:" ++
        segPres "S:" (Option.map escVal (List.lookup "ssid" d)) ++
        segPres "T:" (List.lookup "authentication" d) ++
        segPres "P:" (Option.map escVal (List.lookup "password" d)) ++
        segHidden (List.lookup "hidden" d)) ∧
    (∀ b : Bool, segHidden (some (Val.vbool b)) =
        cs "H:" ++ (if b then cs "true" else cs "false") ++ [';']) ∧
    make_wifi_text [("ssid", Val.vstr (cs "Home")), ("authentication", Val.vstr (cs "WPA")),
        ("password", Val.vstr (cs "secret")), ("hidden", Val.vbool true)] =
      cs "WIFI:S:Home;T:WPA;P:secret;H:true;" := by
  refine ⟨make_wifi_eq, ?_, by decide⟩
  intro b
  cases b <;> decide

/-- Claim C3: the escaping utility returns a copy of its input in which every
occurrence of a reserved character from the set backslash, double quote,
semicolon, comma is prefixed with a backslash, the backslash being escaped
before the other three so that escaping backslashes are never re-escaped
(equality with the one-pass left-to-right escape), and an absent or empty
input is returned unchanged without error. -/
theorem escaping_utility_correct :
    (∀ s : List Char, escape_mecard_special_chars s = escapeSpec s) ∧
      escape_mecard_special_chars_opt none = none ∧
      escape_mecard_special_chars [] = [] := by
  refine ⟨escape_eq_spec, rfl, rfl⟩

/-- Claim C8: permissive parameter resolution. An invalid size string such
as X resolves to the same module size as the letter m, 18, as does any
integer below 1; the letters t, s, m, l, h resolve to 6, 12, 18, 30, 48;
and a version of 0, out of the range 1 to 40, or non-numeric resolves to
the auto-fit marker, the same as an unset (None) version. -/
theorem permissive_parameter_resolution :
    actual_size (Val.vstr (cs "X")) = actual_size (Val.vstr (cs "m")) ∧
    actual_size (Val.vstr (cs "X")) = 18 ∧
    (∀ n : Int, n < 1 → actual_size (Val.vint n) = 18) ∧
    actual_size (Val.vstr (cs "t")) = 6 ∧
    actual_size (Val.vstr (cs "s")) = 12 ∧
    actual_size (Val.vstr (cs "m")) = 18 ∧
    actual_size (Val.vstr (cs "l")) = 30 ∧
    actual_size (Val.vstr (cs "h")) = 48 ∧
    actual_version (Val.vint 0) = 0 ∧
    (∀ n : Int, n < 1 ∨ n > 40 → actual_version (Val.vint n) = 0) ∧
    actual_version (Val.vstr (cs "abc")) = 0 ∧
    actual_version Val.vnone = 0 := by
  have hm : (List.lookup (cs "m") SIZE_DICT).getD 0 = 18 := by decide
  refine ⟨by decide, by decide, ?_, by decide, by decide, by decide, by decide, by decide,
    by decide, ?_, by decide, by decide⟩
  · intro n hn
    simp [actual_size, isInstInt, pyIntOf, hn, hm]
  · intro n hn
    simp only [actual_version, isInstInt, pyIntOf, Bool.true_or, if_true]
    rw [if_pos hn]

/-- Witness for claim C8 at concrete out-of-range inputs. -/
theorem permissive_parameter_resolution_witness :
    actual_size (Val.vint 0) = 18 ∧ actual_version (Val.vint 41) = 0 ∧
      actual_version (Val.vint (-5)) = 0 := by
  obtain ⟨-, -, hs, -, -, -, -, -, -, hv, -, -⟩ := permissive_parameter_resolution
  exact ⟨hs 0 (by decide), hv 41 (Or.inr (by decide)), hv (-5) (Or.inl (by decide))⟩

/-- Counterexample to claim C9 as stated: a site configuration that
explicitly enables external requests by setting ALLOWS_EXTERNAL_REQUESTS to
True is not honoured — the branch on the AEFRU entry (defaulting to False)
overwrites the decision with False. -/
theorem protection_policy_counterexample :
    aerTrueConfig.AER = some true ∧
      (get_url_protection_options aerTrueSettings none).ALLOWS_EXTERNAL_REQUESTS = false :=
  ⟨rfl, rfl⟩

/-- Claim C9 amended: the skip-protection decision is False unless the
configuration enables it through ALLOWS_EXTERNAL_REQUESTS_FOR_REGISTERED_USER
— a configured callable decides on the user (False when there is no user),
a truthy flag grants access exactly to an authenticated present user — and a
directly configured ALLOWS_EXTERNAL_REQUESTS value is always recomputed by
that branch, so it never takes effect. -/
theorem protection_policy_amended :
    ∀ (settings : SiteSettings) (user : Option User),
      (get_url_protection_options settings user).ALLOWS_EXTERNAL_REQUESTS =
        match settings.QR_CODE_URL_PROTECTION with
        | none => false
        | some cfg =>
            match cfg.AEFRU.getD (AefruVal.flag false) with
            | AefruVal.func f =>
                (match user with
                 | none => false
                 | some u => f u)
            | AefruVal.flag true =>
                (match user with
                 | none => false
                 | some u => u.is_authenticated)
            | AefruVal.flag false => false := by
  intro settings user
  unfold get_url_protection_options
  cases settings.QR_CODE_URL_PROTECTION with
  | none => rfl
  | some cfg =>
    cases hA : cfg.AEFRU.getD (AefruVal.flag false) with
    | func f =>
      simp only [hA]
    | flag b =>
      simp only [hA]
      cases b <;> cases user <;> rfl

/-- Unfolded shape of the protection token over string components. -/
theorem token_unfold (s1 s2 s3 s4 s5 : List Char) :
    get_qr_url_protection_token (Val.vstr s1) (Val.vstr s2) (Val.vstr s3) (Val.vstr s4)
        (Val.vstr s5) =
      s1 ++ '.' :: (s2 ++ '.' :: (s3 ++ '.' :: (s4 ++ '.' :: s5))) := rfl

/-- Splitting at the first occurrence of a separator is unambiguous when
neither left part contains the separator. -/
theorem sep_split (ch : Char) (a : List Char) :
    ∀ b X Y : List Char, ch ∉ a → ch ∉ b →
      a ++ ch :: X = b ++ ch :: Y → a = b ∧ X = Y := by
  induction a with
  | nil =>
    intro b X Y _ hb h
    cases b with
    | nil =>
      refine ⟨rfl, ?_⟩
      simpa using h
    | cons c bs =>
      exfalso
      have hc : ch = c := by
        have := congrArg (fun l => l.headI) h
        simpa using this
      exact hb (hc ▸ List.mem_cons_self c bs)
  | cons c as ih =>
    intro b X Y ha hb h
    cases b with
    | nil =>
      exfalso
      have hc : c = ch := by
        have := congrArg (fun l => l.headI) h
        simpa using this
      exact ha (hc ▸ List.mem_cons_self c as)
    | cons c2 bs =>
      have h1 : c = c2 := by
        have := congrArg (fun l => l.headI) h
        simpa using this
      have h2 : as ++ ch :: X = bs ++ ch :: Y := by
        have := congrArg List.tail h
        simpa using this
      obtain ⟨hab, hXY⟩ := ih bs X Y (fun hm => ha (List.mem_cons_of_mem c hm))
        (fun hm => hb (List.mem_cons_of_mem c2 hm)) h2
      exact ⟨by rw [h1, hab], hXY⟩

/-- Splitting at the last occurrence of a separator is unambiguous when
neither right part contains the separator. -/
theorem sep_split_last (ch : Char) (p0 r0 p2 r : List Char) (h0 : ch ∉ r0) (h2 : ch ∉ r)
    (h : p0 ++ ch :: r0 = p2 ++ ch :: r) : p0 = p2 ∧ r0 = r := by
  have hrev : r0.reverse ++ ch :: p0.reverse = r.reverse ++ ch :: p2.reverse := by
    have hh := congrArg List.reverse h
    simpa [List.reverse_append] using hh
  obtain ⟨hr, hp⟩ := sep_split ch r0.reverse r.reverse p0.reverse p2.reverse
    (by simpa using h0) (by simpa using h2) hrev
  constructor
  · have := congrArg List.reverse hp
    simpa using this
  · have := congrArg List.reverse hr
    simpa using this

/-- Counterexample to claim C2 as stated: two parameter tuples that differ
in the size and border components produce the same token string, because a
component may itself contain the dot separator. -/
theorem token_uniqueness_counterexample :
    get_qr_url_protection_token (Val.vstr (cs "a.b")) (Val.vstr (cs "c")) Val.vnone
        (Val.vstr (cs "svg")) (Val.vstr (cs "R")) =
      get_qr_url_protection_token (Val.vstr (cs "a")) (Val.vstr (cs "b.c")) Val.vnone
        (Val.vstr (cs "svg")) (Val.vstr (cs "R")) ∧
      ¬ (cs "a.b" = cs "a" ∧ cs "c" = cs "b.c") := by
  refine ⟨by decide, by decide⟩

/-- Claim C2 amended: the unsigned protection token is the five components,
each converted to a string, joined by dots; componentwise equal tuples give
equal tokens, and, provided no component string among the first four of
either tuple contains the separator dot, equal tokens force all five
component strings to be equal; without that proviso distinct tuples can
share a token. -/
theorem token_uniqueness_amended :
    (∀ s1 s2 s3 s4 s5 t1 t2 t3 t4 t5 : Val,
        s1 = t1 → s2 = t2 → s3 = t3 → s4 = t4 → s5 = t5 →
        get_qr_url_protection_token s1 s2 s3 s4 s5 =
          get_qr_url_protection_token t1 t2 t3 t4 t5) ∧
    (∀ s1 s2 s3 s4 s5 t1 t2 t3 t4 t5 : List Char,
        '.' ∉ s1 → '.' ∉ s2 → '.' ∉ s3 → '.' ∉ s4 →
        '.' ∉ t1 → '.' ∉ t2 → '.' ∉ t3 → '.' ∉ t4 →
        get_qr_url_protection_token (Val.vstr s1) (Val.vstr s2) (Val.vstr s3) (Val.vstr s4)
            (Val.vstr s5) =
          get_qr_url_protection_token (Val.vstr t1) (Val.vstr t2) (Val.vstr t3) (Val.vstr t4)
            (Val.vstr t5) →
        s1 = t1 ∧ s2 = t2 ∧ s3 = t3 ∧ s4 = t4 ∧ s5 = t5) := by
  constructor
  · intro s1 s2 s3 s4 s5 t1 t2 t3 t4 t5 h1 h2 h3 h4 h5
    rw [h1, h2, h3, h4, h5]
  · intro s1 s2 s3 s4 s5 t1 t2 t3 t4 t5 hs1 hs2 hs3 hs4 ht1 ht2 ht3 ht4 h
    rw [token_unfold, token_unfold] at h
    obtain ⟨e1, h⟩ := sep_split '.' s1 t1 _ _ hs1 ht1 h
    obtain ⟨e2, h⟩ := sep_split '.' s2 t2 _ _ hs2 ht2 h
    obtain ⟨e3, h⟩ := sep_split '.' s3 t3 _ _ hs3 ht3 h
    obtain ⟨e4, e5⟩ := sep_split '.' s4 t4 _ _ hs4 ht4 h
    exact ⟨e1, e2, e3, e4, e5⟩

/-- Witness for the amended claim C2 at concrete dot-free components (the
salt component may contain dots). -/
theorem token_uniqueness_amended_witness :
    cs "m" = cs "m" ∧ cs "4" = cs "4" ∧ cs "None" = cs "None" ∧ cs "svg" = cs "svg" ∧
      cs "R.R" = cs "R.R" :=
  token_uniqueness_amended.2 (cs "m") (cs "4") (cs "None") (cs "svg") (cs "R.R")
    (cs "m") (cs "4") (cs "None") (cs "svg") (cs "R.R")
    (by decide) (by decide) (by decide) (by decide)
    (by decide) (by decide) (by decide) (by decide) rfl

theorem digitChar_ne_colon (d : Nat) : digitChar d ≠ ':' := by
  unfold digitChar
  split <;> decide

theorem natCharsAux_no_colon (fuel : Nat) :
    ∀ (n : Nat) (acc : List Char), ':' ∉ acc → ':' ∉ natCharsAux fuel n acc := by
  induction fuel with
  | zero =>
    intro n acc h
    exact h
  | succ f ih =>
    intro n acc h
    have hacc : ':' ∉ digitChar (n % 10) :: acc := by
      intro hmem
      rcases List.mem_cons.mp hmem with h1 | h2
      · exact digitChar_ne_colon _ h1.symm
      · exact h h2
    unfold natCharsAux
    split
    · exact hacc
    · exact ih (n / 10) _ hacc

theorem natChars_no_colon (n : Nat) : ':' ∉ natChars n :=
  natCharsAux_no_colon (n + 1) n [] (by simp)

theorem sigChars_no_colon (key salt value : List Char) : ':' ∉ sigChars key salt value :=
  natChars_no_colon _

/-- A string containing a colon always splits. -/
theorem rsplitColon_ne_none (s : List Char) (h : ':' ∈ s) : rsplitColon s ≠ none := by
  induction s with
  | nil => cases h
  | cons c rest ih =>
    unfold rsplitColon
    rcases List.mem_cons.mp h with h1 | h2
    · cases hr : rsplitColon rest with
      | some pr => simp
      | none => simp [← h1]
    · cases hr : rsplitColon rest with
      | some pr => simp
      | none => exact absurd hr (ih h2)

/-- Soundness of the last-colon split: a successful split decomposes the
string around a colon with a colon-free right part. -/
theorem rsplitColon_sound (s : List Char) :
    ∀ p r : List Char, rsplitColon s = some (p, r) → s = p ++ ':' :: r ∧ ':' ∉ r := by
  induction s with
  | nil =>
    intro p r h
    exact absurd h (by simp [rsplitColon])
  | cons c rest ih =>
    intro p r h
    unfold rsplitColon at h
    cases hs : rsplitColon rest with
    | some pr =>
      obtain ⟨p0, r0⟩ := pr
      rw [hs] at h
      obtain ⟨hp, hr⟩ : c :: p0 = p ∧ r0 = r := by
        constructor <;> · injection h with h1; injection h1
      obtain ⟨hrest, hnr⟩ := ih p0 r0 hs
      subst hp
      subst hr
      exact ⟨by rw [hrest]; rfl, hnr⟩
    | none =>
      rw [hs] at h
      by_cases hc : c = ':'
      · rw [if_pos hc] at h
        obtain ⟨hp, hr⟩ : ([] : List Char) = p ∧ rest = r := by
          constructor <;> · injection h with h1; injection h1
        subst hp
        subst hr
        refine ⟨by rw [hc]; rfl, ?_⟩
        intro hmem
        exact (rsplitColon_ne_none rest hmem) hs
      · rw [if_neg hc] at h
        cases h

/-- Completeness of the last-colon split: a decomposition with a colon-free
right part is the one the split returns. -/
theorem rsplitColon_complete (s p r : List Char) (hs : s = p ++ ':' :: r) (hr : ':' ∉ r) :
    rsplitColon s = some (p, r) := by
  cases h : rsplitColon s with
  | none =>
    exact absurd h (rsplitColon_ne_none s (by rw [hs]; simp))
  | some pr =>
    obtain ⟨p0, r0⟩ := pr
    obtain ⟨hs0, hr0⟩ := rsplitColon_sound s p0 r0 h
    have heq : p0 ++ ':' :: r0 = p ++ ':' :: r := by rw [← hs0, hs]
    obtain ⟨hp, hrr⟩ := sep_split_last ':' p0 r0 p r hr0 hr heq
    rw [hp, hrr]

/-- Unsigning a signed value recovers it. -/
theorem unsign_sign (sg : Signer) (v : List Char) : sg.unsign (sg.sign v) = some v := by
  unfold Signer.sign Signer.unsign
  rw [rsplitColon_complete _ v (sigChars sg.key sg.salt v) rfl (sigChars_no_colon _ _ _)]
  simp

/-- A string unsigns to a payload exactly when it is that payload signed. -/
theorem unsign_eq_some_iff (sg : Signer) (s p : List Char) :
    sg.unsign s = some p ↔ s = p ++ ':' :: sigChars sg.key sg.salt p := by
  constructor
  · intro h
    unfold Signer.unsign at h
    cases hs : rsplitColon s with
    | none => rw [hs] at h; cases h
    | some pr =>
      obtain ⟨p0, r0⟩ := pr
      rw [hs] at h
      have h2 : (if r0 = sigChars sg.key sg.salt p0 then some p0 else none) = some p := h
      by_cases hsig : r0 = sigChars sg.key sg.salt p0
      · rw [if_pos hsig] at h2
        have hp : p0 = p := by injection h2
        obtain ⟨hdec, -⟩ := rsplitColon_sound s p0 r0 hs
        rw [hdec, hp, hsig, hp]
      · rw [if_neg hsig] at h2
        cases h2
  · intro h
    have : rsplitColon s = some (p, sigChars sg.key sg.salt p) :=
      rsplitColon_complete s p _ h (sigChars_no_colon _ _ _)
    unfold Signer.unsign
    rw [this]
    simp

/-- A string passes verification exactly when it is the signed token of the
very parameters being verified. -/
theorem valid_iff (sg : Signer) (rt tok : List Char) (size border version fmt : Val) :
    qr_url_protection_token_is_valid sg rt tok size border version fmt = true ↔
      tok = get_qr_url_protection_signed_token sg rt size border version fmt := by
  unfold qr_url_protection_token_is_valid get_qr_url_protection_signed_token
  constructor
  · intro h
    cases hu : sg.unsign tok with
    | none => rw [hu] at h; cases h
    | some p =>
      rw [hu] at h
      have hp : p = get_qr_url_protection_token size border version fmt (Val.vstr rt) :=
        of_decide_eq_true h
      have := (unsign_eq_some_iff sg tok p).mp hu
      rw [this, hp]
      rfl
  · intro h
    subst h
    rw [show sg.sign (get_qr_url_protection_token size border version fmt (Val.vstr rt)) =
        Signer.sign sg (get_qr_url_protection_token size border version fmt (Val.vstr rt))
      from rfl]
    rw [unsign_sign]
    simp

/-- Signing is injective on payloads. -/
theorem sign_inj (sg : Signer) (t u : List Char) (h : sg.sign t = sg.sign u) : t = u := by
  unfold Signer.sign at h
  exact (sep_split_last ':' t _ u _ (sigChars_no_colon _ _ _) (sigChars_no_colon _ _ _) h).1

/-- Claim C1: token round trip. Minting a signed token for a parameter
tuple and verifying it against the identical tuple succeeds; verifying it
against a tuple that differs in any single one of the four fields fails;
and an externally constructed string carrying the correct parameter tuple
but an invalid signature is rejected. Parameters are taken as the strings
they contribute to the token. -/
theorem token_round_trip :
    (∀ (sg : Signer) (rt size border version fmt : List Char),
        qr_url_protection_token_is_valid sg rt
          (get_qr_url_protection_signed_token sg rt (Val.vstr size) (Val.vstr border)
            (Val.vstr version) (Val.vstr fmt))
          (Val.vstr size) (Val.vstr border) (Val.vstr version) (Val.vstr fmt) = true) ∧
    (∀ (sg : Signer) (rt size border version fmt s2 : List Char), s2 ≠ size →
        qr_url_protection_token_is_valid sg rt
          (get_qr_url_protection_signed_token sg rt (Val.vstr size) (Val.vstr border)
            (Val.vstr version) (Val.vstr fmt))
          (Val.vstr s2) (Val.vstr border) (Val.vstr version) (Val.vstr fmt) = false) ∧
    (∀ (sg : Signer) (rt size border version fmt b2 : List Char), b2 ≠ border →
        qr_url_protection_token_is_valid sg rt
          (get_qr_url_protection_signed_token sg rt (Val.vstr size) (Val.vstr border)
            (Val.vstr version) (Val.vstr fmt))
          (Val.vstr size) (Val.vstr b2) (Val.vstr version) (Val.vstr fmt) = false) ∧
    (∀ (sg : Signer) (rt size border version fmt v2 : List Char), v2 ≠ version →
        qr_url_protection_token_is_valid sg rt
          (get_qr_url_protection_signed_token sg rt (Val.vstr size) (Val.vstr border)
            (Val.vstr version) (Val.vstr fmt))
          (Val.vstr size) (Val.vstr border) (Val.vstr v2) (Val.vstr fmt) = false) ∧
    (∀ (sg : Signer) (rt size border version fmt f2 : List Char), f2 ≠ fmt →
        qr_url_protection_token_is_valid sg rt
          (get_qr_url_protection_signed_token sg rt (Val.vstr size) (Val.vstr border)
            (Val.vstr version) (Val.vstr fmt))
          (Val.vstr size) (Val.vstr border) (Val.vstr version) (Val.vstr f2) = false) ∧
    (∀ (sg : Signer) (rt size border version fmt sig2 : List Char),
        sig2 ≠ sigChars sg.key sg.salt (get_qr_url_protection_token (Val.vstr size)
          (Val.vstr border) (Val.vstr version) (Val.vstr fmt) (Val.vstr rt)) →
        qr_url_protection_token_is_valid sg rt
          (get_qr_url_protection_token (Val.vstr size) (Val.vstr border) (Val.vstr version)
            (Val.vstr fmt) (Val.vstr rt) ++ ':' :: sig2)
          (Val.vstr size) (Val.vstr border) (Val.vstr version) (Val.vstr fmt) = false) := by
  refine ⟨?_, ?_, ?_, ?_, ?_, ?_⟩
  · intro sg rt size border version fmt
    exact (valid_iff sg rt _ _ _ _ _).mpr rfl
  · intro sg rt size border version fmt s2 hne
    by_contra hc
    have hv := eq_true_of_ne_false hc
    have hmm := (valid_iff sg rt _ _ _ _ _).mp hv
    have htok := sign_inj sg _ _ hmm
    rw [token_unfold, token_unfold] at htok
    exact hne (List.append_cancel_right htok).symm
  · intro sg rt size border version fmt b2 hne
    by_contra hc
    have hv := eq_true_of_ne_false hc
    have hmm := (valid_iff sg rt _ _ _ _ _).mp hv
    have htok := sign_inj sg _ _ hmm
    rw [token_unfold, token_unfold] at htok
    have h1 := List.append_cancel_left htok
    have h2 : border ++ '.' :: (version ++ '.' :: (fmt ++ '.' :: rt)) =
        b2 ++ '.' :: (version ++ '.' :: (fmt ++ '.' :: rt)) := by
      injection h1
    exact hne (List.append_cancel_right h2).symm
  · intro sg rt size border version fmt v2 hne
    by_contra hc
    have hv := eq_true_of_ne_false hc
    have hmm := (valid_iff sg rt _ _ _ _ _).mp hv
    have htok := sign_inj sg _ _ hmm
    rw [token_unfold, token_unfold] at htok
    have h1 := List.append_cancel_left htok
    have h2 : border ++ '.' :: (version ++ '.' :: (fmt ++ '.' :: rt)) =
        border ++ '.' :: (v2 ++ '.' :: (fmt ++ '.' :: rt)) := by
      injection h1
    have h3 := List.append_cancel_left h2
    have h4 : version ++ '.' :: (fmt ++ '.' :: rt) = v2 ++ '.' :: (fmt ++ '.' :: rt) := by
      injection h3
    exact hne (List.append_cancel_right h4).symm
  · intro sg rt size border version fmt f2 hne
    by_contra hc
    have hv := eq_true_of_ne_false hc
    have hmm := (valid_iff sg rt _ _ _ _ _).mp hv
    have htok := sign_inj sg _ _ hmm
    rw [token_unfold, token_unfold] at htok
    have h1 := List.append_cancel_left htok
    have h2 : border ++ '.' :: (version ++ '.' :: (fmt ++ '.' :: rt)) =
        border ++ '.' :: (version ++ '.' :: (f2 ++ '.' :: rt)) := by
      injection h1
    have h3 := List.append_cancel_left h2
    have h4 : version ++ '.' :: (fmt ++ '.' :: rt) = version ++ '.' :: (f2 ++ '.' :: rt) := by
      injection h3
    have h5 := List.append_cancel_left h4
    have h6 : fmt ++ '.' :: rt = f2 ++ '.' :: rt := by
      injection h5
    exact hne (List.append_cancel_right h6).symm
  · intro sg rt size border version fmt sig2 hne
    by_contra hc
    have hv := eq_true_of_ne_false hc
    have hmm := (valid_iff sg rt _ _ _ _ _).mp hv
    have hsg : get_qr_url_protection_token (Val.vstr size) (Val.vstr border)
        (Val.vstr version) (Val.vstr fmt) (Val.vstr rt) ++ ':' :: sig2 =
        get_qr_url_protection_token (Val.vstr size) (Val.vstr border) (Val.vstr version)
          (Val.vstr fmt) (Val.vstr rt) ++ ':' :: sigChars sg.key sg.salt
          (get_qr_url_protection_token (Val.vstr size) (Val.vstr border) (Val.vstr version)
            (Val.vstr fmt) (Val.vstr rt)) := hmm
    have h1 := List.append_cancel_left hsg
    have h2 : sig2 = sigChars sg.key sg.salt (get_qr_url_protection_token (Val.vstr size)
        (Val.vstr border) (Val.vstr version) (Val.vstr fmt) (Val.vstr rt)) := by
      injection h1
    exact hne h2

/-- Witness for claim C1 at a concrete signer, salt and parameter tuple:
the minted token verifies against its own tuple and fails against a tuple
with a different size. -/
theorem token_round_trip_witness :
    qr_url_protection_token_is_valid ⟨cs "key", cs "salt"⟩ (cs "R")
        (get_qr_url_protection_signed_token ⟨cs "key", cs "salt"⟩ (cs "R") (Val.vstr (cs "m"))
          (Val.vstr (cs "4")) (Val.vstr (cs "None")) (Val.vstr (cs "svg")))
        (Val.vstr (cs "m")) (Val.vstr (cs "4")) (Val.vstr (cs "None"))
        (Val.vstr (cs "svg")) = true ∧
      qr_url_protection_token_is_valid ⟨cs "key", cs "salt"⟩ (cs "R")
        (get_qr_url_protection_signed_token ⟨cs "key", cs "salt"⟩ (cs "R") (Val.vstr (cs "m"))
          (Val.vstr (cs "4")) (Val.vstr (cs "None")) (Val.vstr (cs "svg")))
        (Val.vstr (cs "l")) (Val.vstr (cs "4")) (Val.vstr (cs "None"))
        (Val.vstr (cs "svg")) = false :=
  ⟨token_round_trip.1 ⟨cs "key", cs "salt"⟩ (cs "R") (cs "m") (cs "4") (cs "None") (cs "svg"),
    token_round_trip.2.1 ⟨cs "key", cs "salt"⟩ (cs "R") (cs "m") (cs "4") (cs "None") (cs "svg")
      (cs "l") (by decide)⟩

theorem storeGet_storeSet_ne (st : Store) (r1 r : Nat) (d : Dict) (h : r1 ≠ r) :
    storeGet (storeSet st r1 d) r = storeGet st r := by
  unfold storeGet storeSet
  simp [List.getD, List.getElem?_set_ne h]

theorem storeGet_storeSet_self (st : Store) (r1 : Nat) (d : Dict) (h : r1 < st.length) :
    storeGet (storeSet st r1 d) r1 = d := by
  unfold storeGet storeSet
  simp [List.getD, List.getElem?_set_self h]

theorem storeSet_length (st : Store) (r1 : Nat) (d : Dict) :
    (storeSet st r1 d).length = st.length := by
  simp [storeSet]

/-- The escaping fold never writes outside the fresh reference. -/
theorem escape_foldl_op_frame (d0 : Dict) (keys : List String) (r1 r : Nat) (hne : r1 ≠ r) :
    ∀ acc : Store,
      storeGet (keys.foldl
        (fun acc key =>
          if hasKey d0 key then
            storeSet acc r1 (dictSet (storeGet acc r1) key (escVal (getVal (storeGet acc r1) key)))
          else acc) acc) r = storeGet acc r := by
  induction keys with
  | nil =>
    intro acc
    rfl
  | cons key rest ih =>
    intro acc
    rw [List.foldl_cons, ih]
    by_cases hh : hasKey d0 key
    · rw [if_pos hh]
      exact storeGet_storeSet_ne _ _ _ _ hne
    · rw [if_neg hh]

/-- Behind the fresh reference, the escaping fold computes exactly the pure
dictionary fold. -/
theorem escape_foldl_op_at_fresh (d0 : Dict) (keys : List String) (r1 : Nat) :
    ∀ acc : Store, r1 < acc.length →
      storeGet (keys.foldl
        (fun acc key =>
          if hasKey d0 key then
            storeSet acc r1 (dictSet (storeGet acc r1) key (escVal (getVal (storeGet acc r1) key)))
          else acc) acc) r1 =
        keys.foldl
          (fun ed key => if hasKey d0 key then dictSet ed key (escVal (getVal ed key)) else ed)
          (storeGet acc r1) := by
  induction keys with
  | nil =>
    intro acc _
    rfl
  | cons key rest ih =>
    intro acc hlen
    rw [List.foldl_cons, List.foldl_cons]
    by_cases hh : hasKey d0 key
    · rw [if_pos hh, if_pos hh]
      rw [ih _ (by rw [storeSet_length]; exact hlen)]
      rw [storeGet_storeSet_self _ _ _ hlen]
    · rw [if_neg hh, if_neg hh]
      exact ih acc hlen

theorem storeGet_append_lt (st : Store) (d : Dict) (r : Nat) (h : r < st.length) :
    storeGet (st ++ [d]) r = storeGet st r := by
  unfold storeGet
  exact List.getD_append st [d] [] r h

theorem storeGet_append_self (st : Store) (d : Dict) :
    storeGet (st ++ [d]) st.length = d := by
  unfold storeGet
  simp [List.getD, List.getElem?_append_right (Nat.le_refl st.length)]

/-- Claim C10: the builders never mutate the caller's dictionary. In the
store model, running make_contact_text or make_wifi_text on a reference
leaves the dictionary behind that reference exactly as it was (escaping is
applied to a freshly allocated copy), and the string produced equals the
pure function of the original dictionary value. -/
theorem builders_do_not_mutate_input :
    ∀ (st : Store) (r : Nat), r < st.length →
      storeGet (make_contact_text_op st r).1 r = storeGet st r ∧
      (make_contact_text_op st r).2 = make_contact_text (storeGet st r) ∧
      storeGet (make_wifi_text_op st r).1 r = storeGet st r ∧
      (make_wifi_text_op st r).2 = make_wifi_text (storeGet st r) := by
  intro st r hr
  have hne : st.length ≠ r := fun h => absurd (h ▸ hr) (Nat.lt_irrefl _)
  have hlen : st.length < (st ++ [storeGet st r]).length := by
    simp
  have hfresh : storeGet (st ++ [storeGet st r]) st.length = storeGet st r :=
    storeGet_append_self st (storeGet st r)
  refine ⟨?_, ?_, ?_, ?_⟩
  · unfold make_contact_text_op escape_in_dict_op
    rw [escape_foldl_op_frame _ _ _ _ hne]
    exact storeGet_append_lt st _ r hr
  · unfold make_contact_text_op escape_in_dict_op make_contact_text
      escape_mecard_special_chars_in_dict dictCopy
    dsimp only
    rw [escape_foldl_op_at_fresh _ _ _ _ hlen, hfresh]
  · unfold make_wifi_text_op escape_in_dict_op
    rw [escape_foldl_op_frame _ _ _ _ hne]
    exact storeGet_append_lt st _ r hr
  · unfold make_wifi_text_op escape_in_dict_op make_wifi_text
      escape_mecard_special_chars_in_dict dictCopy
    dsimp only
    rw [escape_foldl_op_at_fresh _ _ _ _ hlen, hfresh]

/-- Witness for claim C10 at a concrete one-dictionary store. -/
theorem builders_do_not_mutate_input_witness :
    storeGet (make_contact_text_op [telDict] 0).1 0 = storeGet [telDict] 0 ∧
      (make_contact_text_op [telDict] 0).2 = make_contact_text (storeGet [telDict] 0) ∧
      storeGet (make_wifi_text_op [telDict] 0).1 0 = storeGet [telDict] 0 ∧
      (make_wifi_text_op [telDict] 0).2 = make_wifi_text (storeGet [telDict] 0) :=
  builders_do_not_mutate_input [telDict] 0 (by decide)

end QrSpec
